import Mathlib

/-!
Verification of the `gpg` subprocess wrapper (package `gpg`, file
`src/unnamed/part_000`).

The wrapper runs an external gpg binary, classifies how its subprocess
terminated, and parses the captured diagnostic stream (stderr) with three
anchored regular expressions.  The subprocess itself is outside the program:
we model one invocation by the pair of its termination classification
(`WaitResult`) and its captured stderr text.  Everything from the moment
`cmd.Wait()` returns is translated below; strings are modelled as `List Char`
(one entry per byte of the Go string, which is exact for the ASCII texts the
patterns are built from).
-/

namespace Gpg

/-- Strings are lists of characters, as in the Go byte-string they model. -/
abbrev Str := List Char

/-- The escape byte 0x1B, written `\033` in the Go source. -/
def escChar : Char := Char.ofNat 27

/-- Character class of `unprintableRE = [\033\r]` (line 32 of the source). -/
def isUnprintable (c : Char) : Bool := c.toNat == 27 || c.toNat == 13

/-- `unprintableRE.ReplaceAllString(s, "")`: delete every escape (0x1B) and
carriage-return (0x0D) byte.  Applied to every extracted identity string. -/
def sanitize (s : Str) : Str := s.filter fun c => !(isUnprintable c)

/-- A string is control-clean when it contains no escape and no
carriage-return byte. -/
def noCtl (s : Str) : Bool := s.all fun c => !(isUnprintable c)

/-- Character class of the cutset `"\t "` of `strings.Trim` (line 78). -/
def isCutChar (c : Char) : Bool := c == '\t' || c == ' '

/-- `strings.Trim(s, "\t ")`: remove leading and trailing tabs and spaces. -/
def trimCut (s : Str) : Str :=
  ((s.dropWhile isCutChar).reverse.dropWhile isCutChar).reverse

/-- A string neither starts nor ends with a tab or space. -/
def noEdgeCut (e : Str) : Bool :=
  (match e.head? with
   | some c => !(isCutChar c)
   | none => true) &&
  (match e.getLast? with
   | some c => !(isCutChar c)
   | none => true)

/-- Split a text into its `\n`-separated segments.  The positions where the
multiline anchor `(?m)^` of the three regexes can match are exactly the
starts of these segments; every segment except the last is followed by a
newline in the original text. -/
def splitNl : Str → List Str
  | [] => [[]]
  | c :: cs =>
    if c = '\n' then [] :: splitNl cs
    else
      match splitNl cs with
      | [] => [[c]]
      | l :: ls => (c :: l) :: ls

/-- Boolean string-prefix test (the literal part of an anchored regex). -/
def startsWith : Str → Str → Bool
  | [], _ => true
  | _ :: _, [] => false
  | p :: ps, c :: cs => p == c && startsWith ps cs

/-- Literal prefix of `goodSignatureRE` (line 29), opening quote included:
`^gpg: Good signature from "`. -/
def goodPre : Str := "gpg: Good signature from \"".data

/-- Literal prefix of `badSignatureRE` (line 30), opening quote included:
`^gpg: BAD signature from "`. -/
def badPre : Str := "gpg: BAD signature from \"".data

/-- Submatch of the greedy `(.*)"` that follows the literal prefix: the
capture extends to the last double quote of the rest of the line; if the
rest of the line has no double quote the line does not match. -/
def lastQuoteCapture (rest : Str) : Option Str :=
  match rest.reverse.dropWhile (fun c => !(c == '"')) with
  | [] => none
  | _ :: tail => some tail.reverse

/-- Match one line against `^<pre>(.*)"`, returning the capture. -/
def sigLineMatch (pre l : Str) : Option Str :=
  if startsWith pre l then lastQuoteCapture (l.drop pre.length) else none

/-- `FindStringSubmatch`: the leftmost match of a `(?m)^`-anchored pattern
is the first matching segment, scanned in order. -/
def firstSigMatch (pre : Str) : List Str → Option Str
  | [] => none
  | l :: ls =>
    match sigLineMatch pre l with
    | some m => some m
    | none => firstSigMatch pre ls

/-- `goodSignatureRE.FindStringSubmatch(stderr)[1]` (first capture). -/
def findGood (s : Str) : Option Str := firstSigMatch goodPre (splitNl s)

/-- `badSignatureRE.FindStringSubmatch(stderr)[1]` (first capture). -/
def findBad (s : Str) : Option Str := firstSigMatch badPre (splitNl s)

/-- Character class of `\s` in the Go regexp engine: `[\t\n\f\r ]`. -/
def isWsChar (c : Char) : Bool :=
  c == ' ' || c == '\t' || c == '\n' || c == '\r' || c.toNat == 12

/-- Literal prefix of `encryptedRE` (line 31): `^gpg: encrypted with`. -/
def encHdr : Str := "gpg: encrypted with".data

/-- After the header line of `encryptedRE` comes `\s*"([^\n]+)"\n`.  The
greedy `\s*` consumes the maximal whitespace run (which may cross segment
boundaries, each crossing consuming the `\n` between two segments) and, the
next character not being whitespace, no backtracking into `\s*` can succeed,
so the double quote must follow that run directly.  The closing `"` of
`([^\n]+)"\n` must be followed by `\n`, i.e. it is the last character of a
newline-terminated segment, and the greedy capture runs to that quote.
Returns the capture and the segments following the quote segment (where
`FindAllStringSubmatch` resumes scanning). -/
def encTryQuote : List Str → Option (Str × List Str)
  | [] => none
  | t :: rest =>
    if t.all isWsChar then
      match rest with
      | [] => none
      | _ :: _ => encTryQuote rest
    else
      match t.dropWhile isWsChar with
      | [] => none
      | c :: tail =>
        if c = '"' ∧ rest ≠ [] ∧ tail.getLast? = some '"' ∧ tail.dropLast ≠ [] then
          some (tail.dropLast, rest)
        else none

/-- Scan of `encryptedRE.FindAllStringSubmatch(stderr, -1)` over the
segments.  An anchor position (segment start) matches when the segment
extends the header prefix by at least one character (`[^\n]+`), is
newline-terminated (the following segment list is nonempty), and a quote
segment follows per `encTryQuote`; scanning resumes after each match, and
after a failed anchor at the next segment.  The fuel argument is the number
of segments, which bounds the number of scanning steps since every step
moves to a proper suffix of the segment list. -/
def encFindAllAux : Nat → List Str → List Str
  | 0, _ => []
  | _ + 1, [] => []
  | f + 1, l :: rest =>
    if startsWith encHdr l ∧ encHdr.length < l.length ∧ rest ≠ [] then
      match encTryQuote rest with
      | some (cap, rest2) => cap :: encFindAllAux f rest2
      | none => encFindAllAux f rest
    else encFindAllAux f rest

/-- All captures of `encryptedRE` over a segment list, in scanning order. -/
def encFindAll (segs : List Str) : List Str := encFindAllAux segs.length segs

/-- All captures of `encryptedRE` over the diagnostic stream, in order. -/
def encMatches (s : Str) : List Str := encFindAll (splitNl s)

/-- One hexadecimal digit (lower case), as printed by the `%x` verbs. -/
def hexDigits : Str := "0123456789abcdef".data

/-- Hexadecimal digit of `n` modulo 16. -/
def hexDigit (n : Nat) : Char := hexDigits.getD (n % 16) '0'

/-- `k` hexadecimal digits of `n`, most significant first (zero padded). -/
def hexN : Nat → Nat → Str
  | 0, _ => []
  | k + 1, n => hexN k (n / 16) ++ [hexDigit n]

/-- Decimal digit of `n` modulo 10. -/
def digitChar (n : Nat) : Char := hexDigits.getD (n % 10) '0'

/-- Decimal rendering of a natural number, as printed by the `%d` verb. -/
def natDec (n : Nat) : Str :=
  if n < 10 then [digitChar n] else natDec (n / 10) ++ [digitChar n]
decreasing_by exact Nat.div_lt_self (by omega) (by omega)

/-- Decimal rendering of an integer, as printed by the `%d` verb. -/
def intDec (c : Int) : Str :=
  if c < 0 then '-' :: natDec c.natAbs else natDec c.toNat

/-- Escaping of one character by the `%q` verb (Go `strconv.Quote`): quote
and backslash are backslash-escaped, printable ASCII passes through, the
seven named control escapes are used where defined, remaining control bytes
become `\xHH`, and all other runes are conservatively rendered with their
`\uHHHH`/`\UHHHHHHHH` escape (Go passes printable non-ASCII runes through
unescaped; either way no control byte is ever emitted, which is the only
property the theorems below use). -/
def quoteChar (c : Char) : Str :=
  if c = '"' ∨ c = '\\' then ['\\', c]
  else if 0x20 ≤ c.toNat ∧ c.toNat ≤ 0x7e then [c]
  else if c.toNat = 7 then ['\\', 'a']
  else if c.toNat = 8 then ['\\', 'b']
  else if c.toNat = 12 then ['\\', 'f']
  else if c = '\n' then ['\\', 'n']
  else if c = '\r' then ['\\', 'r']
  else if c = '\t' then ['\\', 't']
  else if c.toNat = 11 then ['\\', 'v']
  else if c.toNat < 0x20 ∨ c.toNat = 0x7f then ['\\', 'x'] ++ hexN 2 c.toNat
  else if c.toNat < 0x10000 then ['\\', 'u'] ++ hexN 4 c.toNat
  else ['\\', 'U'] ++ hexN 8 c.toNat

/-- The `%q` verb on a string: double-quoted, every character escaped as
needed.  This is how every error message of the wrapper embeds the captured
diagnostic stream. -/
def goQuote (s : Str) : Str := '"' :: (s.map quoteChar).flatten ++ ['"']

/-- `Status` (lines 21-26): outcome of a GPG operation.  `Signed` is the
signer identity, `Encrypted` the ordered recipient identities, `Warnings`
is never filled by the source. -/
structure Status where
  Signed : Str
  Encrypted : List Str
  GoodSignature : Bool
  Warnings : List Str
deriving DecidableEq

/-- Classification of `cmd.Wait()` as inspected by the source (lines
114-127): `success` is a nil error, i.e. the process exited with status 0;
`exit c` is an `exec.ExitError` whose `syscall.WaitStatus` reports
`ExitStatus() = c` (a nonzero exit status, or -1 for a signal-terminated
process); `odd` is a `Wait` error that is not an `exec.ExitError`;
`notUnix` is an `exec.ExitError` whose `Sys()` is not a
`syscall.WaitStatus`. -/
inductive WaitResult where
  | success
  | exit (code : Int)
  | odd
  | notUnix
deriving DecidableEq

deriving instance DecidableEq for Except

/-- Message of line 117 (without the wrapped cause appended by the errors
package, which is an OS-generated text, not diagnostic text). -/
def oddMsg (stderr : Str) : Str :=
  "gpg verify failed for odd reason. stderr: ".data ++ goQuote stderr

/-- Message of line 121 (without the wrapped cause). -/
def notUnixMsg (stderr : Str) : Str :=
  "gpg verify failed, and not unix status. stderr: ".data ++ goQuote stderr

/-- Message of line 124 (without the wrapped cause). -/
def exitMsg (c : Int) (stderr : Str) : Str :=
  "gpg verify failed, and not status 1 (was ".data ++ intDec c ++
    "). stderr: ".data ++ goQuote stderr

/-- Message of line 138: the indeterminate-result error. -/
def indetMsg (stderr : Str) : Str :=
  "signature not good nor bad. What? ".data ++ goQuote stderr

/-- Message of line 69 (without the wrapped cause). -/
def decryptFailMsg (stderr : Str) : Str :=
  "gpg decrypt failed: ".data ++ goQuote stderr

/-- Diagnostic parsing shared verbatim by `Verify` (lines 128-140) and
`VerifyInline` (lines 168-180): check the bad-signature pattern first, then
let the good-signature pattern overwrite, and fail with the
indeterminate-result error when neither matched.  The pair carries the
`status` under construction and the `goodOrBad` flag. -/
def verifyParse (stderr : Str) : Except Str Status :=
  let st0 : Status := { Signed := [], Encrypted := [], GoodSignature := false, Warnings := [] }
  let p1 : Status × Bool :=
    match findBad stderr with
    | some m => ({ st0 with Signed := sanitize m }, true)
    | none => (st0, false)
  let p2 : Status × Bool :=
    match findGood stderr with
    | some m => ({ p1.1 with Signed := sanitize m, GoodSignature := true }, true)
    | none => p1
  if p2.2 then Except.ok p2.1 else Except.error (indetMsg stderr)

/-- Wait classification of `Verify`/`VerifyInline` (lines 114-127 and
154-167): a nil `Wait` error (exit status 0) or exit status 1 proceeds to
diagnostic parsing, everything else is a fatal error. -/
def verifyCore (w : WaitResult) (stderr : Str) : Except Str Status :=
  match w with
  | WaitResult.odd => Except.error (oddMsg stderr)
  | WaitResult.notUnix => Except.error (notUnixMsg stderr)
  | WaitResult.exit c =>
    if c = 1 then verifyParse stderr else Except.error (exitMsg c stderr)
  | WaitResult.success => verifyParse stderr

/-- `Verify` (lines 86-141) after a successful `Start`, as a function of the
subprocess outcome.  The tempdir/tempfile plumbing that feeds the subprocess
is not part of the modelled fragment. -/
def Verify (w : WaitResult) (stderr : Str) : Except Str Status := verifyCore w stderr

/-- `VerifyInline` (lines 144-181) after a successful `Start`; its
post-`Start` code is character-for-character the code of `Verify`. -/
def VerifyInline (w : WaitResult) (stderr : Str) : Except Str Status := verifyCore w stderr

/-- `Decrypt` (lines 51-83) after a successful `Start`, as a function of the
subprocess outcome and captured stdout: any `Wait` error is fatal (line 68);
otherwise the good-signature pattern fills `Signed`/`GoodSignature` (lines
72-75) and every `encryptedRE` capture, sanitized then trimmed of tabs and
spaces, is appended to `Encrypted` in match order (lines 76-80). -/
def Decrypt (w : WaitResult) (stderr stdout : Str) : Except Str (Str × Status) :=
  match w with
  | WaitResult.success =>
    let st0 : Status := { Signed := [], Encrypted := [], GoodSignature := false, Warnings := [] }
    let st1 : Status :=
      match findGood stderr with
      | some m => { st0 with Signed := sanitize m, GoodSignature := true }
      | none => st0
    let st2 : Status :=
      { st1 with Encrypted := (encMatches stderr).map fun m => trimCut (sanitize m) }
    Except.ok (stdout, st2)
  | _ => Except.error (decryptFailMsg stderr)

/-- The header line of the canonical "encrypted with" announcement, as in
the spec scenario `gpg: encrypted with RSA key`. -/
def encHdrLine : Str := "gpg: encrypted with RSA key".data

/-- The recipient line of an announcement: the identity in double quotes. -/
def quoteLine (ident : Str) : Str := '"' :: ident ++ ['"']

/-- One complete "encrypted with" announcement: header line, then the quoted
identity line, both newline-terminated. -/
def encAnnounce (ident : Str) : Str :=
  encHdrLine ++ '\n' :: quoteLine ident ++ ['\n']

/-! Helper lemmas about the sanitizer and control-clean strings. -/

theorem noCtl_append {a b : Str} : noCtl (a ++ b) = (noCtl a && noCtl b) := by
  simp [noCtl]

theorem sanitize_noCtl (s : Str) : noCtl (sanitize s) = true := by
  simp only [noCtl, sanitize, List.all_eq_true]
  intro c hc
  exact (List.mem_filter.mp hc).2

theorem mem_trimCut {c : Char} {s : Str} (h : c ∈ trimCut s) : c ∈ s := by
  unfold trimCut at h
  rw [List.mem_reverse] at h
  have h2 := (List.dropWhile_sublist isCutChar).subset h
  rw [List.mem_reverse] at h2
  exact (List.dropWhile_sublist isCutChar).subset h2

theorem trimCut_sanitize_noCtl (s : Str) : noCtl (trimCut (sanitize s)) = true := by
  simp only [noCtl, List.all_eq_true]
  intro c hc
  have hmem := mem_trimCut hc
  have := sanitize_noCtl s
  simp only [noCtl, List.all_eq_true] at this
  exact this c hmem

theorem sanitize_ne_nil {s : Str} (h : ∃ c ∈ s, isUnprintable c = false) :
    sanitize s ≠ [] := by
  intro hnil
  obtain ⟨c, hc, hp⟩ := h
  rw [sanitize, List.filter_eq_nil_iff] at hnil
  exact hnil c hc (by simp [hp])

theorem all_getD {p : Char → Bool} {l : Str} {d : Char} (hl : l.all p = true)
    (hd : p d = true) (i : Nat) : p (l.getD i d) = true := by
  induction l generalizing i with
  | nil => simpa using hd
  | cons x xs ih =>
    rw [List.all_cons, Bool.and_eq_true] at hl
    cases i with
    | zero => simpa using hl.1
    | succ n =>
      rw [List.getD_cons_succ]
      exact ih hl.2 n

theorem hexDigit_ok (n : Nat) : (!(isUnprintable (hexDigit n))) = true :=
  all_getD (p := fun c => !(isUnprintable c)) (l := hexDigits) (d := '0')
    (by decide) (by decide) (n % 16)

theorem hexN_ok (k n : Nat) : noCtl (hexN k n) = true := by
  induction k generalizing n with
  | zero => rfl
  | succ m ih =>
    rw [hexN, noCtl_append, ih]
    rw [Bool.true_and]
    unfold noCtl
    rw [List.all_cons, hexDigit_ok]
    rfl

theorem digitChar_ok (n : Nat) : (!(isUnprintable (digitChar n))) = true :=
  all_getD (p := fun c => !(isUnprintable c)) (l := hexDigits) (d := '0')
    (by decide) (by decide) (n % 10)

theorem natDec_ok (n : Nat) : noCtl (natDec n) = true := by
  induction n using Nat.strong_induction_on with
  | _ n ih =>
    unfold natDec
    split
    · unfold noCtl
      rw [List.all_cons, digitChar_ok]
      rfl
    · rw [noCtl_append, ih (n / 10) (Nat.div_lt_self (by omega) (by omega))]
      rw [Bool.true_and]
      unfold noCtl
      rw [List.all_cons, digitChar_ok]
      rfl

theorem intDec_ok (c : Int) : noCtl (intDec c) = true := by
  rw [intDec]
  split
  · unfold noCtl
    have h := natDec_ok c.natAbs
    unfold noCtl at h
    rw [List.all_cons, h]
    decide
  · exact natDec_ok c.toNat

theorem quoteChar_ok (c : Char) : noCtl (quoteChar c) = true := by
  rw [quoteChar]
  by_cases h1 : c = '"' ∨ c = '\\'
  · rw [if_pos h1]
    rcases h1 with h | h <;> subst h <;> decide
  rw [if_neg h1]
  by_cases h2 : 0x20 ≤ c.toNat ∧ c.toNat ≤ 0x7e
  · rw [if_pos h2]
    have hu : isUnprintable c = false := by
      simp only [isUnprintable, Bool.or_eq_false_iff, beq_eq_false_iff_ne, ne_eq]
      omega
    unfold noCtl
    rw [List.all_cons, hu]
    rfl
  rw [if_neg h2]
  by_cases h3 : c.toNat = 7
  · rw [if_pos h3]; decide
  rw [if_neg h3]
  by_cases h4 : c.toNat = 8
  · rw [if_pos h4]; decide
  rw [if_neg h4]
  by_cases h5 : c.toNat = 12
  · rw [if_pos h5]; decide
  rw [if_neg h5]
  by_cases h6 : c = '\n'
  · rw [if_pos h6]; decide
  rw [if_neg h6]
  by_cases h7 : c = '\r'
  · rw [if_pos h7]; decide
  rw [if_neg h7]
  by_cases h8 : c = '\t'
  · rw [if_pos h8]; decide
  rw [if_neg h8]
  by_cases h9 : c.toNat = 11
  · rw [if_pos h9]; decide
  rw [if_neg h9]
  by_cases h10 : c.toNat < 0x20 ∨ c.toNat = 0x7f
  · rw [if_pos h10, noCtl_append, hexN_ok]; decide
  rw [if_neg h10]
  by_cases h11 : c.toNat < 0x10000
  · rw [if_pos h11, noCtl_append, hexN_ok]; decide
  rw [if_neg h11, noCtl_append, hexN_ok]; decide

theorem flatten_noCtl {L : List Str} (h : ∀ x ∈ L, noCtl x = true) :
    noCtl L.flatten = true := by
  induction L with
  | nil => rfl
  | cons x xs ih =>
    rw [List.flatten_cons, noCtl_append, h x (by simp),
      ih fun y hy => h y (by simp [hy])]
    rfl

theorem goQuote_ok (s : Str) : noCtl (goQuote s) = true := by
  have h1 : noCtl (s.map quoteChar).flatten = true := by
    apply flatten_noCtl
    intro x hx
    obtain ⟨c, _, rfl⟩ := List.mem_map.mp hx
    exact quoteChar_ok c
  unfold noCtl at h1 ⊢
  unfold goQuote
  simp only [List.all_cons, List.all_append, h1]
  decide

/-! Helper lemmas about the two verification operations and `Decrypt`. -/

theorem verifyParse_good {s g : Str} (hg : findGood s = some g) :
    verifyParse s = Except.ok ⟨sanitize g, [], true, []⟩ := by
  unfold verifyParse
  cases hb : findBad s <;> simp [hg, hb]

theorem verifyParse_badOnly {s b : Str} (hg : findGood s = none)
    (hb : findBad s = some b) :
    verifyParse s = Except.ok ⟨sanitize b, [], false, []⟩ := by
  unfold verifyParse
  simp [hg, hb]

theorem verifyParse_indet {s : Str} (hg : findGood s = none)
    (hb : findBad s = none) :
    verifyParse s = Except.error (indetMsg s) := by
  unfold verifyParse
  simp [hg, hb]

theorem verifyParse_ok_cases {s : Str} {st : Status}
    (h : verifyParse s = Except.ok st) :
    (∃ g, findGood s = some g ∧ st = ⟨sanitize g, [], true, []⟩) ∨
    (findGood s = none ∧ ∃ b, findBad s = some b ∧ st = ⟨sanitize b, [], false, []⟩) := by
  cases hg : findGood s with
  | some g =>
    left
    refine ⟨g, rfl, ?_⟩
    rw [verifyParse_good hg] at h
    exact (Except.ok.injEq .. ▸ h).symm
  | none =>
    cases hb : findBad s with
    | some b =>
      right
      refine ⟨rfl, b, rfl, ?_⟩
      rw [verifyParse_badOnly hg hb] at h
      exact (Except.ok.injEq .. ▸ h).symm
    | none =>
      rw [verifyParse_indet hg hb] at h
      exact absurd h (by simp)

theorem verifyParse_err {s : Str} {e : Str} (h : verifyParse s = Except.error e) :
    e = indetMsg s ∧ findGood s = none ∧ findBad s = none := by
  cases hg : findGood s with
  | some g =>
    rw [verifyParse_good hg] at h
    exact absurd h (by simp)
  | none =>
    cases hb : findBad s with
    | some b =>
      rw [verifyParse_badOnly hg hb] at h
      exact absurd h (by simp)
    | none =>
      rw [verifyParse_indet hg hb] at h
      exact ⟨(Except.error.injEq .. ▸ h).symm, rfl, rfl⟩

theorem verifyCore_ok {w : WaitResult} {s : Str} {st : Status}
    (h : verifyCore w s = Except.ok st) :
    (w = WaitResult.success ∨ w = WaitResult.exit 1) ∧ verifyParse s = Except.ok st := by
  cases w with
  | success => exact ⟨Or.inl rfl, h⟩
  | exit c =>
    have h2 : (if c = 1 then verifyParse s else Except.error (exitMsg c s)) = Except.ok st := h
    by_cases hc : c = 1
    · subst hc
      rw [if_pos rfl] at h2
      exact ⟨Or.inr rfl, h2⟩
    · rw [if_neg hc] at h2
      exact absurd h2 (by simp)
  | odd => exact absurd h (by simp [verifyCore])
  | notUnix => exact absurd h (by simp [verifyCore])

theorem verifyCore_err {w : WaitResult} {s e : Str}
    (h : verifyCore w s = Except.error e) :
    e = oddMsg s ∨ e = notUnixMsg s ∨ (∃ c, e = exitMsg c s) ∨ e = indetMsg s := by
  cases w with
  | success =>
    exact Or.inr (Or.inr (Or.inr (verifyParse_err h).1))
  | exit c =>
    have h2 : (if c = 1 then verifyParse s else Except.error (exitMsg c s)) = Except.error e := h
    by_cases hc : c = 1
    · subst hc
      rw [if_pos rfl] at h2
      exact Or.inr (Or.inr (Or.inr (verifyParse_err h2).1))
    · rw [if_neg hc] at h2
      simp only [Except.error.injEq] at h2
      exact Or.inr (Or.inr (Or.inl ⟨c, h2.symm⟩))
  | odd =>
    simp only [verifyCore, Except.error.injEq] at h
    exact Or.inl h.symm
  | notUnix =>
    simp only [verifyCore, Except.error.injEq] at h
    exact Or.inr (Or.inl h.symm)

theorem Decrypt_success_eq (ds dso : Str) :
    Decrypt WaitResult.success ds dso =
      Except.ok (dso,
        ⟨(match findGood ds with
          | some m => sanitize m
          | none => []),
         (encMatches ds).map fun m => trimCut (sanitize m),
         (findGood ds).isSome, []⟩) := by
  unfold Decrypt
  cases hg : findGood ds <;> simp [hg]

theorem Decrypt_ok {w : WaitResult} {ds dso out : Str} {st : Status}
    (h : Decrypt w ds dso = Except.ok (out, st)) :
    w = WaitResult.success ∧ out = dso ∧
    st.Encrypted = (encMatches ds).map (fun m => trimCut (sanitize m)) ∧
    st.Warnings = [] ∧
    ((∃ m, findGood ds = some m ∧ st.Signed = sanitize m ∧ st.GoodSignature = true) ∨
     (findGood ds = none ∧ st.Signed = [] ∧ st.GoodSignature = false)) := by
  cases w with
  | success =>
    rw [Decrypt_success_eq] at h
    simp only [Except.ok.injEq, Prod.mk.injEq] at h
    obtain ⟨hout, hst⟩ := h
    subst hout hst
    cases hg : findGood ds with
    | some m => exact ⟨rfl, rfl, by simp [hg], by simp [hg], Or.inl ⟨m, rfl, by simp [hg], by simp [hg]⟩⟩
    | none => exact ⟨rfl, rfl, by simp [hg], by simp [hg], Or.inr ⟨rfl, by simp [hg], by simp [hg]⟩⟩
  | exit c => exact absurd h (by simp [Decrypt])
  | odd => exact absurd h (by simp [Decrypt])
  | notUnix => exact absurd h (by simp [Decrypt])

theorem Decrypt_err {w : WaitResult} {ds dso e : Str}
    (h : Decrypt w ds dso = Except.error e) : e = decryptFailMsg ds := by
  cases w with
  | success =>
    rw [Decrypt_success_eq] at h
    exact absurd h (by simp)
  | exit c =>
    simp only [Decrypt, Except.error.injEq] at h
    exact h.symm
  | odd =>
    simp only [Decrypt, Except.error.injEq] at h
    exact h.symm
  | notUnix =>
    simp only [Decrypt, Except.error.injEq] at h
    exact h.symm

/-! Helper lemmas about segment splitting and the encrypted-with scan. -/

theorem splitNl_ne_nil (s : Str) : splitNl s ≠ [] := by
  cases s with
  | nil => simp [splitNl]
  | cons c cs =>
    unfold splitNl
    by_cases hc : c = '\n'
    · simp [hc]
    · rw [if_neg hc]
      cases splitNl cs <;> simp

theorem splitNl_append {l : Str} (hl : '\n' ∉ l) (rest : Str) :
    splitNl (l ++ '\n' :: rest) = l :: splitNl rest := by
  induction l with
  | nil => simp [splitNl]
  | cons c cs ih =>
    rw [List.mem_cons, not_or] at hl
    rw [List.cons_append]
    conv_lhs => rw [splitNl.eq_def]
    simp only []
    rw [if_neg (fun hcc => hl.1 hcc.symm), ih hl.2]

theorem quoteLine_no_nl {i : Str} (hi : '\n' ∉ i) : '\n' ∉ quoteLine i := by
  unfold quoteLine
  intro hmem
  rcases List.mem_append.mp hmem with h | h
  · rcases List.mem_cons.mp h with h2 | h2
    · exact absurd h2 (by decide)
    · exact hi h2
  · exact absurd (List.mem_singleton.mp h) (by decide)

theorem splitNl_encAnnounce {i : Str} (hi : '\n' ∉ i) (s : Str) :
    splitNl (encAnnounce i ++ s) = encHdrLine :: quoteLine i :: splitNl s := by
  unfold encAnnounce
  have h1 : (encHdrLine ++ '\n' :: quoteLine i ++ ['\n']) ++ s =
      encHdrLine ++ '\n' :: (quoteLine i ++ '\n' :: s) := by
    simp [List.append_assoc]
  rw [h1, splitNl_append (by decide), splitNl_append (quoteLine_no_nl hi)]

theorem encTryQuote_quoteLine {i : Str} (hi : i ≠ []) {segs : List Str}
    (hs : segs ≠ []) : encTryQuote (quoteLine i :: segs) = some (i, segs) := by
  have h0 : isWsChar '"' = false := by decide
  unfold quoteLine
  rw [encTryQuote.eq_def]
  simp [h0, hs, hi, List.getLast?_concat]

theorem encTryQuote_shrink : ∀ {segs : List Str} {cap : Str} {rest2 : List Str},
    encTryQuote segs = some (cap, rest2) → rest2.length < segs.length := by
  intro segs
  induction segs with
  | nil => intro cap rest2 h; exact absurd h (by simp [encTryQuote])
  | cons t rest ih =>
    intro cap rest2 h
    rw [encTryQuote.eq_def] at h
    simp only [] at h
    by_cases hws : t.all isWsChar = true
    · rw [if_pos hws] at h
      cases rest with
      | nil => exact absurd h (by simp)
      | cons r rs =>
        have h2 := ih h
        simp only [List.length_cons] at h2 ⊢
        omega
    · rw [if_neg hws] at h
      cases hd : t.dropWhile isWsChar with
      | nil => rw [hd] at h; exact absurd h (by simp)
      | cons c tail =>
        rw [hd] at h
        simp only [] at h
        by_cases hcond : c = '"' ∧ rest ≠ [] ∧ tail.getLast? = some '"' ∧ tail.dropLast ≠ []
        · rw [if_pos hcond] at h
          simp only [Option.some.injEq, Prod.mk.injEq] at h
          rw [← h.2]
          simp
        · rw [if_neg hcond] at h
          exact absurd h (by simp)

theorem encFindAllAux_congr : ∀ (f g : Nat) (segs : List Str),
    segs.length ≤ f → segs.length ≤ g →
    encFindAllAux f segs = encFindAllAux g segs := by
  intro f
  induction f with
  | zero =>
    intro g segs hf hg
    have : segs = [] := List.length_eq_zero.mp (Nat.le_zero.mp hf)
    subst this
    cases g <;> rfl
  | succ f ih =>
    intro g segs hf hg
    cases segs with
    | nil => cases g <;> rfl
    | cons l rest =>
      cases g with
      | zero => simp at hg
      | succ g2 =>
        rw [encFindAllAux, encFindAllAux]
        simp only [List.length_cons] at hf hg
        by_cases hc : startsWith encHdr l ∧ encHdr.length < l.length ∧ rest ≠ []
        · rw [if_pos hc, if_pos hc]
          cases htq : encTryQuote rest with
          | none =>
            simp only []
            exact ih g2 rest (by omega) (by omega)
          | some pr =>
            obtain ⟨cap, rest2⟩ := pr
            have hlen := encTryQuote_shrink htq
            simp only []
            rw [ih g2 rest2 (by omega) (by omega)]
        · rw [if_neg hc, if_neg hc]
          exact ih g2 rest (by omega) (by omega)

theorem encFindAll_cons_match {i : Str} (hi : i ≠ []) {segs : List Str}
    (hs : segs ≠ []) :
    encFindAll (encHdrLine :: quoteLine i :: segs) = i :: encFindAll segs := by
  unfold encFindAll
  simp only [List.length_cons]
  rw [encFindAllAux]
  rw [if_pos ⟨by decide, by decide, by simp⟩]
  rw [encTryQuote_quoteLine hi hs]
  simp only []
  rw [encFindAllAux_congr (segs.length + 1) segs.length segs (by omega) (by omega)]

theorem firstSigMatch_cons {pre l : Str} {ls : List Str} :
    firstSigMatch pre (l :: ls) =
      match sigLineMatch pre l with
      | some m => some m
      | none => firstSigMatch pre ls := rfl

theorem firstSigMatch_cons_none {pre l : Str} {ls : List Str}
    (h : sigLineMatch pre l = none) :
    firstSigMatch pre (l :: ls) = firstSigMatch pre ls := by
  rw [firstSigMatch_cons, h]

theorem startsWith_goodPre_quote (x : Str) : startsWith goodPre ('"' :: x) = false := rfl

theorem startsWith_badPre_quote (x : Str) : startsWith badPre ('"' :: x) = false := rfl

theorem sigLineMatch_goodPre_hdrLine : sigLineMatch goodPre encHdrLine = none := by decide

theorem sigLineMatch_badPre_hdrLine : sigLineMatch badPre encHdrLine = none := by decide

theorem sigLineMatch_goodPre_quoteLine (i : Str) :
    sigLineMatch goodPre (quoteLine i) = none := by
  unfold sigLineMatch quoteLine
  rw [List.cons_append,
    if_neg (by rw [startsWith_goodPre_quote]; simp)]

theorem sigLineMatch_badPre_quoteLine (i : Str) :
    sigLineMatch badPre (quoteLine i) = none := by
  unfold sigLineMatch quoteLine
  rw [List.cons_append,
    if_neg (by rw [startsWith_badPre_quote]; simp)]

theorem encMatches_announces : ∀ (idents : List Str),
    (∀ i ∈ idents, i ≠ [] ∧ '\n' ∉ i) →
    encMatches ((idents.map encAnnounce).flatten) = idents := by
  intro idents
  induction idents with
  | nil => intro _; decide
  | cons i rest ih =>
    intro h
    have hi := h i (by simp)
    rw [List.map_cons, List.flatten_cons]
    unfold encMatches
    rw [splitNl_encAnnounce hi.2, encFindAll_cons_match hi.1 (splitNl_ne_nil _)]
    have ih2 := ih fun j hj => h j (by simp [hj])
    unfold encMatches at ih2
    rw [ih2]

theorem findGood_announces : ∀ (idents : List Str),
    (∀ i ∈ idents, '\n' ∉ i) →
    findGood ((idents.map encAnnounce).flatten) = none := by
  intro idents
  induction idents with
  | nil => intro _; decide
  | cons i rest ih =>
    intro h
    rw [List.map_cons, List.flatten_cons]
    unfold findGood
    rw [splitNl_encAnnounce (h i (by simp)),
      firstSigMatch_cons_none sigLineMatch_goodPre_hdrLine,
      firstSigMatch_cons_none (sigLineMatch_goodPre_quoteLine i)]
    have ih2 := ih fun j hj => h j (by simp [hj])
    unfold findGood at ih2
    exact ih2

/-! Helper lemmas about `strings.Trim` edges. -/

theorem dropWhile_head?_false {p : Char → Bool} {l : Str} {c : Char}
    (h : (l.dropWhile p).head? = some c) : p c = false := by
  have h2 := List.head?_dropWhile_not p l
  rw [h] at h2
  exact h2

theorem dropWhile_getLast? {p : Char → Bool} {l : Str} (h : l.dropWhile p ≠ []) :
    (l.dropWhile p).getLast? = l.getLast? := by
  obtain ⟨t, ht⟩ := List.dropWhile_suffix p (l := l)
  conv_rhs => rw [← ht]
  rw [List.getLast?_append]
  cases hd : l.dropWhile p with
  | nil => exact absurd hd h
  | cons a as =>
    rw [List.getLast?_eq_getLast (a :: as) (by simp)]
    rfl

theorem noEdgeCut_trimCut (s : Str) : noEdgeCut (trimCut s) = true := by
  have htrim : trimCut s =
      ((s.dropWhile isCutChar).reverse.dropWhile isCutChar).reverse := rfl
  unfold noEdgeCut
  rw [Bool.and_eq_true]
  constructor
  · rw [htrim, List.head?_reverse]
    cases hgl : ((s.dropWhile isCutChar).reverse.dropWhile isCutChar).getLast? with
    | none => rfl
    | some c =>
      by_cases hnil : (s.dropWhile isCutChar).reverse.dropWhile isCutChar = []
      · rw [hnil] at hgl
        exact absurd hgl (by simp)
      · rw [dropWhile_getLast? hnil, List.getLast?_reverse] at hgl
        show (!(isCutChar c)) = true
        rw [dropWhile_head?_false hgl]
        rfl
  · rw [htrim, List.getLast?_reverse]
    cases hh : ((s.dropWhile isCutChar).reverse.dropWhile isCutChar).head? with
    | none => rfl
    | some c =>
      show (!(isCutChar c)) = true
      rw [dropWhile_head?_false hh]
      rfl

/-! Final shared lemmas feeding the claim theorems. -/

theorem verifyCore_exit1 (s : Str) : verifyCore (WaitResult.exit 1) s = verifyParse s := by
  show (if (1 : Int) = 1 then verifyParse s else Except.error (exitMsg 1 s)) = verifyParse s
  rw [if_pos rfl]

theorem verifyCore_expected {w : WaitResult} {s : Str}
    (hw : w = WaitResult.success ∨ w = WaitResult.exit 1) :
    verifyCore w s = verifyParse s := by
  rcases hw with rfl | rfl
  · rfl
  · exact verifyCore_exit1 s

theorem verifyCore_ok_noCtl {w : WaitResult} {s : Str} {st : Status}
    (h : verifyCore w s = Except.ok st) :
    noCtl st.Signed = true ∧ st.Encrypted.all noCtl = true := by
  obtain ⟨-, hp⟩ := verifyCore_ok h
  rcases verifyParse_ok_cases hp with ⟨g, -, rfl⟩ | ⟨-, b, -, rfl⟩
  · exact ⟨sanitize_noCtl g, rfl⟩
  · exact ⟨sanitize_noCtl b, rfl⟩

theorem verify_good_of_ok {w : WaitResult} {s : Str} {st : Status}
    (h : verifyCore w s = Except.ok st) (hg : st.GoodSignature = true) :
    ∃ g, findGood s = some g ∧ st.Signed = sanitize g := by
  obtain ⟨-, hp⟩ := verifyCore_ok h
  rcases verifyParse_ok_cases hp with ⟨g, hfind, rfl⟩ | ⟨-, b, -, rfl⟩
  · exact ⟨g, hfind, rfl⟩
  · simp at hg

theorem decrypt_good_of_ok {w : WaitResult} {ds dso out : Str} {st : Status}
    (h : Decrypt w ds dso = Except.ok (out, st)) (hg : st.GoodSignature = true) :
    ∃ g, findGood ds = some g ∧ st.Signed = sanitize g := by
  obtain ⟨-, -, -, -, hsig⟩ := Decrypt_ok h
  rcases hsig with ⟨g, hfind, hs, -⟩ | ⟨-, -, hbad⟩
  · exact ⟨g, hfind, hs⟩
  · rw [hg] at hbad
    exact absurd hbad (by simp)

theorem decryptFailMsg_ok (s : Str) : noCtl (decryptFailMsg s) = true := by
  unfold decryptFailMsg
  rw [noCtl_append, goQuote_ok, Bool.and_true]
  decide

theorem oddMsg_ok (s : Str) : noCtl (oddMsg s) = true := by
  unfold oddMsg
  rw [noCtl_append, goQuote_ok, Bool.and_true]
  decide

theorem notUnixMsg_ok (s : Str) : noCtl (notUnixMsg s) = true := by
  unfold notUnixMsg
  rw [noCtl_append, goQuote_ok, Bool.and_true]
  decide

theorem indetMsg_ok (s : Str) : noCtl (indetMsg s) = true := by
  unfold indetMsg
  rw [noCtl_append, goQuote_ok, Bool.and_true]
  decide

theorem exitMsg_ok (c : Int) (s : Str) : noCtl (exitMsg c s) = true := by
  unfold exitMsg
  rw [noCtl_append, noCtl_append, noCtl_append, intDec_ok, goQuote_ok]
  decide

/-! The claim theorems. -/

/-- Claim C1: for every Verify or VerifyInline call whose subprocess exit
status is in the expected set (0, modelled `WaitResult.success`, or 1), if
the diagnostic stream matches neither the good-signature nor the
bad-signature pattern, the operation returns the indeterminate-result error
and no Status. -/
theorem claimC1 (w : WaitResult) (stderr : Str)
    (hw : w = WaitResult.success ∨ w = WaitResult.exit 1)
    (hg : findGood stderr = none) (hb : findBad stderr = none) :
    Verify w stderr = Except.error (indetMsg stderr) ∧
    VerifyInline w stderr = Except.error (indetMsg stderr) := by
  have hcore : verifyCore w stderr = Except.error (indetMsg stderr) := by
    rw [verifyCore_expected hw]
    exact verifyParse_indet hg hb
  exact ⟨hcore, hcore⟩

/-- Witness for C1 at a concrete stream with no signature claim. -/
theorem claimC1_w :
    Verify (WaitResult.exit 1) "gpg: no valid OpenPGP data found.".data =
      Except.error (indetMsg "gpg: no valid OpenPGP data found.".data) ∧
    VerifyInline (WaitResult.exit 1) "gpg: no valid OpenPGP data found.".data =
      Except.error (indetMsg "gpg: no valid OpenPGP data found.".data) :=
  claimC1 (WaitResult.exit 1) "gpg: no valid OpenPGP data found.".data
    (Or.inr rfl) (by decide) (by decide)

/-- Claim C3: after a successful start, an exit status other than 0 or 1
(0 is represented by `WaitResult.success`, since a nil `Wait` error means
exit status 0), or a termination that cannot be mapped to a unix exit
status, is a fatal error for Verify and VerifyInline; exit status 0 or 1
proceeds to diagnostic parsing instead of failing. -/
theorem claimC3 (c : Int) (stderr : Str) (hc0 : c ≠ 0) (hc1 : c ≠ 1) :
    Verify (WaitResult.exit c) stderr = Except.error (exitMsg c stderr) ∧
    VerifyInline (WaitResult.exit c) stderr = Except.error (exitMsg c stderr) ∧
    Verify WaitResult.odd stderr = Except.error (oddMsg stderr) ∧
    VerifyInline WaitResult.odd stderr = Except.error (oddMsg stderr) ∧
    Verify WaitResult.notUnix stderr = Except.error (notUnixMsg stderr) ∧
    VerifyInline WaitResult.notUnix stderr = Except.error (notUnixMsg stderr) ∧
    Verify WaitResult.success stderr = verifyParse stderr ∧
    VerifyInline WaitResult.success stderr = verifyParse stderr ∧
    Verify (WaitResult.exit 1) stderr = verifyParse stderr ∧
    VerifyInline (WaitResult.exit 1) stderr = verifyParse stderr := by
  have hexit : verifyCore (WaitResult.exit c) stderr = Except.error (exitMsg c stderr) := by
    show (if c = 1 then verifyParse stderr else Except.error (exitMsg c stderr)) = _
    rw [if_neg hc1]
  exact ⟨hexit, hexit, rfl, rfl, rfl, rfl, rfl, rfl,
    verifyCore_exit1 stderr, verifyCore_exit1 stderr⟩

/-- Witness for C3 at exit status 2. -/
theorem claimC3_w :
    Verify (WaitResult.exit 2) "gpg: fatal".data =
      Except.error (exitMsg 2 "gpg: fatal".data) ∧
    VerifyInline (WaitResult.exit 2) "gpg: fatal".data =
      Except.error (exitMsg 2 "gpg: fatal".data) ∧
    Verify WaitResult.odd "gpg: fatal".data = Except.error (oddMsg "gpg: fatal".data) ∧
    VerifyInline WaitResult.odd "gpg: fatal".data = Except.error (oddMsg "gpg: fatal".data) ∧
    Verify WaitResult.notUnix "gpg: fatal".data =
      Except.error (notUnixMsg "gpg: fatal".data) ∧
    VerifyInline WaitResult.notUnix "gpg: fatal".data =
      Except.error (notUnixMsg "gpg: fatal".data) ∧
    Verify WaitResult.success "gpg: fatal".data = verifyParse "gpg: fatal".data ∧
    VerifyInline WaitResult.success "gpg: fatal".data = verifyParse "gpg: fatal".data ∧
    Verify (WaitResult.exit 1) "gpg: fatal".data = verifyParse "gpg: fatal".data ∧
    VerifyInline (WaitResult.exit 1) "gpg: fatal".data = verifyParse "gpg: fatal".data :=
  claimC3 2 "gpg: fatal".data (by decide) (by decide)

/-- Claim C4: every identity string of every Status returned by Decrypt,
Verify or VerifyInline (the `Signed` field and every `Encrypted` entry) is
free of escape (0x1B) and carriage-return (0x0D) bytes: the sanitizer is
applied to every extracted string before it enters the Status. -/
theorem claimC4 (dw vw iw : WaitResult) (dse dso out vse ise : Str)
    (dst vst ist : Status)
    (hd : Decrypt dw dse dso = Except.ok (out, dst))
    (hv : Verify vw vse = Except.ok vst)
    (hi : VerifyInline iw ise = Except.ok ist) :
    noCtl dst.Signed = true ∧ dst.Encrypted.all noCtl = true ∧
    noCtl vst.Signed = true ∧ vst.Encrypted.all noCtl = true ∧
    noCtl ist.Signed = true ∧ ist.Encrypted.all noCtl = true := by
  obtain ⟨-, -, henc, -, hsig⟩ := Decrypt_ok hd
  obtain ⟨hv1, hv2⟩ := verifyCore_ok_noCtl hv
  obtain ⟨hi1, hi2⟩ := verifyCore_ok_noCtl hi
  refine ⟨?_, ?_, hv1, hv2, hi1, hi2⟩
  · rcases hsig with ⟨m, -, hs, -⟩ | ⟨-, hs, -⟩
    · rw [hs]; exact sanitize_noCtl m
    · rw [hs]; rfl
  · rw [henc, List.all_eq_true]
    intro x hx
    obtain ⟨m, -, rfl⟩ := List.mem_map.mp hx
    exact trimCut_sanitize_noCtl m

/-- Witness for C4 on concrete successful operations. -/
theorem claimC4_w :
    noCtl (Status.mk "A".data [] true []).Signed = true ∧
    (Status.mk "A".data [] true []).Encrypted.all noCtl = true ∧
    noCtl (Status.mk "A".data [] true []).Signed = true ∧
    (Status.mk "A".data [] true []).Encrypted.all noCtl = true ∧
    noCtl (Status.mk "A".data [] true []).Signed = true ∧
    (Status.mk "A".data [] true []).Encrypted.all noCtl = true :=
  claimC4 WaitResult.success (WaitResult.exit 1) (WaitResult.exit 1)
    "gpg: Good signature from \"A\"".data "ok".data "ok".data
    "gpg: Good signature from \"A\"".data "gpg: Good signature from \"A\"".data
    (Status.mk "A".data [] true []) (Status.mk "A".data [] true [])
    (Status.mk "A".data [] true [])
    (by decide) (by decide) (by decide)

/-- Claim C5: every fatal error of Decrypt, Verify or VerifyInline that
embeds captured diagnostic text is free of raw escape (0x1B) and
carriage-return (0x0D) bytes, the embedding being the `%q` quoting of the
captured stderr. -/
theorem claimC5 (dw vw iw : WaitResult) (dse dso vse ise e1 e2 e3 : Str)
    (hd : Decrypt dw dse dso = Except.error e1)
    (hv : Verify vw vse = Except.error e2)
    (hi : VerifyInline iw ise = Except.error e3) :
    noCtl e1 = true ∧ noCtl e2 = true ∧ noCtl e3 = true := by
  refine ⟨?_, ?_, ?_⟩
  · rw [Decrypt_err hd]
    exact decryptFailMsg_ok dse
  · rcases verifyCore_err hv with h | h | ⟨c, h⟩ | h
    · rw [h]; exact oddMsg_ok vse
    · rw [h]; exact notUnixMsg_ok vse
    · rw [h]; exact exitMsg_ok c vse
    · rw [h]; exact indetMsg_ok vse
  · rcases verifyCore_err hi with h | h | ⟨c, h⟩ | h
    · rw [h]; exact oddMsg_ok ise
    · rw [h]; exact notUnixMsg_ok ise
    · rw [h]; exact exitMsg_ok c ise
    · rw [h]; exact indetMsg_ok ise

/-- Witness for C5 on concrete failing operations. -/
theorem claimC5_w :
    noCtl (decryptFailMsg "gpg: decryption failed".data) = true ∧
    noCtl (oddMsg "gpg: broken pipe".data) = true ∧
    noCtl (exitMsg 2 "gpg: fatal".data) = true :=
  claimC5 (WaitResult.exit 2) WaitResult.odd (WaitResult.exit 2)
    "gpg: decryption failed".data "x".data "gpg: broken pipe".data "gpg: fatal".data
    (decryptFailMsg "gpg: decryption failed".data) (oddMsg "gpg: broken pipe".data)
    (exitMsg 2 "gpg: fatal".data) rfl rfl rfl

/-- Claim C2 counterexample: the diagnostic stream `gpg: BAD signature from
""` contains a bad-signature line (quoted identity empty) and no
good-signature line, the exit status 1 is in the expected set, yet the
returned Status has an empty signer, so "non-empty signer" fails. -/
theorem claimC2_cex :
    findBad "gpg: BAD signature from \"\"".data = some [] ∧
    findGood "gpg: BAD signature from \"\"".data = none ∧
    Verify (WaitResult.exit 1) "gpg: BAD signature from \"\"".data =
      Except.ok (Status.mk [] [] false []) ∧
    VerifyInline (WaitResult.exit 1) "gpg: BAD signature from \"\"".data =
      Except.ok (Status.mk [] [] false []) := by
  refine ⟨by decide, by decide, ?_, ?_⟩ <;> decide

/-- Claim C2 as amended: with a bad-signature match and no good-signature
match, Verify and VerifyInline return `signatureValid = false` and a signer
equal to the sanitized quoted identity of the first bad-signature line; that
signer is non-empty whenever the quoted identity contains at least one
character that is not an escape or carriage-return byte. -/
theorem claimC2 (w : WaitResult) (s b : Str)
    (hw : w = WaitResult.success ∨ w = WaitResult.exit 1)
    (hb : findBad s = some b) (hg : findGood s = none) :
    Verify w s = Except.ok (Status.mk (sanitize b) [] false []) ∧
    VerifyInline w s = Except.ok (Status.mk (sanitize b) [] false []) ∧
    ((∃ c ∈ b, isUnprintable c = false) → sanitize b ≠ []) := by
  have hcore : verifyCore w s = Except.ok (Status.mk (sanitize b) [] false []) := by
    rw [verifyCore_expected hw]
    exact verifyParse_badOnly hg hb
  exact ⟨hcore, hcore, fun h => sanitize_ne_nil h⟩

/-- Witness for the amended C2 at a concrete bad-signature stream. -/
theorem claimC2_w :
    Verify (WaitResult.exit 1) "gpg: BAD signature from \"Eve\"".data =
      Except.ok (Status.mk "Eve".data [] false []) ∧
    VerifyInline (WaitResult.exit 1) "gpg: BAD signature from \"Eve\"".data =
      Except.ok (Status.mk "Eve".data [] false []) ∧
    ((∃ c ∈ "Eve".data, isUnprintable c = false) → sanitize "Eve".data ≠ []) :=
  claimC2 (WaitResult.exit 1) "gpg: BAD signature from \"Eve\"".data "Eve".data
    (Or.inr rfl) (by decide) (by decide)

/-- Claim C6 counterexample: on the stream `gpg: Good signature from ""`
(empty quoted identity) Verify returns `GoodSignature = true` with an empty
`Signed` field, so "signatureValid implies non-empty signer" fails. -/
theorem claimC6_cex :
    Verify WaitResult.success "gpg: Good signature from \"\"".data =
      Except.ok (Status.mk [] [] true []) := by decide

/-- Claim C6 as amended: in every Status returned by Decrypt, Verify or
VerifyInline, `GoodSignature = true` implies `Signed` is the sanitized
quoted identity of the matched good-signature line; it is therefore
non-empty whenever that identity has a character that is not an escape or
carriage-return byte, but empty identities yield an empty signer. -/
theorem claimC6 (vw iw dw : WaitResult) (vs is2 ds dso out : Str)
    (vst ist dst : Status)
    (hv : Verify vw vs = Except.ok vst) (hgv : vst.GoodSignature = true)
    (hi : VerifyInline iw is2 = Except.ok ist) (hgi : ist.GoodSignature = true)
    (hd : Decrypt dw ds dso = Except.ok (out, dst)) (hgd : dst.GoodSignature = true) :
    (∃ g, findGood vs = some g ∧ vst.Signed = sanitize g ∧
      ((∃ c ∈ g, isUnprintable c = false) → vst.Signed ≠ [])) ∧
    (∃ g, findGood is2 = some g ∧ ist.Signed = sanitize g ∧
      ((∃ c ∈ g, isUnprintable c = false) → ist.Signed ≠ [])) ∧
    (∃ g, findGood ds = some g ∧ dst.Signed = sanitize g ∧
      ((∃ c ∈ g, isUnprintable c = false) → dst.Signed ≠ [])) := by
  obtain ⟨g1, hf1, hs1⟩ := verify_good_of_ok hv hgv
  obtain ⟨g2, hf2, hs2⟩ := verify_good_of_ok hi hgi
  obtain ⟨g3, hf3, hs3⟩ := decrypt_good_of_ok hd hgd
  exact ⟨⟨g1, hf1, hs1, fun h => hs1 ▸ sanitize_ne_nil h⟩,
    ⟨g2, hf2, hs2, fun h => hs2 ▸ sanitize_ne_nil h⟩,
    ⟨g3, hf3, hs3, fun h => hs3 ▸ sanitize_ne_nil h⟩⟩

/-- Witness for the amended C6 on concrete good-signature results. -/
theorem claimC6_w :
    (∃ g, findGood "gpg: Good signature from \"A\"".data = some g ∧
      (Status.mk "A".data [] true []).Signed = sanitize g ∧
      ((∃ c ∈ g, isUnprintable c = false) → (Status.mk "A".data [] true []).Signed ≠ [])) ∧
    (∃ g, findGood "gpg: Good signature from \"A\"".data = some g ∧
      (Status.mk "A".data [] true []).Signed = sanitize g ∧
      ((∃ c ∈ g, isUnprintable c = false) → (Status.mk "A".data [] true []).Signed ≠ [])) ∧
    (∃ g, findGood "gpg: Good signature from \"A\"".data = some g ∧
      (Status.mk "A".data [] true []).Signed = sanitize g ∧
      ((∃ c ∈ g, isUnprintable c = false) → (Status.mk "A".data [] true []).Signed ≠ [])) :=
  claimC6 WaitResult.success (WaitResult.exit 1) WaitResult.success
    "gpg: Good signature from \"A\"".data "gpg: Good signature from \"A\"".data
    "gpg: Good signature from \"A\"".data "out".data "out".data
    (Status.mk "A".data [] true []) (Status.mk "A".data [] true [])
    (Status.mk "A".data [] true [])
    (by decide) rfl (by decide) rfl (by decide) rfl

/-- Claim C7 counterexample: in the stream whose first signer claim is a
bad-signature line for Eve, followed by a good-signature line for Alice,
the returned Status carries Alice with `GoodSignature = true`: the later
good-signature claim overrides the earlier bad one, so "only the first
signer claim found in the stream is used" fails. -/
theorem claimC7_cex :
    splitNl "gpg: BAD signature from \"Eve\"\ngpg: Good signature from \"Alice\"".data =
      ["gpg: BAD signature from \"Eve\"".data, "gpg: Good signature from \"Alice\"".data] ∧
    findBad "gpg: BAD signature from \"Eve\"\ngpg: Good signature from \"Alice\"".data =
      some "Eve".data ∧
    Verify (WaitResult.exit 1)
      "gpg: BAD signature from \"Eve\"\ngpg: Good signature from \"Alice\"".data =
      Except.ok (Status.mk "Alice".data [] true []) ∧
    VerifyInline (WaitResult.exit 1)
      "gpg: BAD signature from \"Eve\"\ngpg: Good signature from \"Alice\"".data =
      Except.ok (Status.mk "Alice".data [] true []) := by
  refine ⟨by decide, by decide, ?_, ?_⟩ <;> decide

/-- Claim C7 as amended: each pattern is matched against the first line it
matches (that is definitional in `firstSigMatch`), but across polarities a
good-signature line anywhere in the stream determines the Status, and a
bad-signature line determines it only when no good-signature line exists. -/
theorem claimC7 (w : WaitResult) (s : Str)
    (hw : w = WaitResult.success ∨ w = WaitResult.exit 1) :
    (∀ g, findGood s = some g →
      Verify w s = Except.ok (Status.mk (sanitize g) [] true []) ∧
      VerifyInline w s = Except.ok (Status.mk (sanitize g) [] true [])) ∧
    (∀ b, findGood s = none → findBad s = some b →
      Verify w s = Except.ok (Status.mk (sanitize b) [] false []) ∧
      VerifyInline w s = Except.ok (Status.mk (sanitize b) [] false [])) := by
  constructor
  · intro g hg
    have hcore : verifyCore w s = Except.ok (Status.mk (sanitize g) [] true []) := by
      rw [verifyCore_expected hw]
      exact verifyParse_good hg
    exact ⟨hcore, hcore⟩
  · intro b hg hb
    have hcore : verifyCore w s = Except.ok (Status.mk (sanitize b) [] false []) := by
      rw [verifyCore_expected hw]
      exact verifyParse_badOnly hg hb
    exact ⟨hcore, hcore⟩

/-- Witness for the amended C7: the good-signature line wins on the
counterexample stream. -/
theorem claimC7_w :
    Verify WaitResult.success
      "gpg: BAD signature from \"Eve\"\ngpg: Good signature from \"Alice\"".data =
      Except.ok (Status.mk (sanitize "Alice".data) [] true []) ∧
    VerifyInline WaitResult.success
      "gpg: BAD signature from \"Eve\"\ngpg: Good signature from \"Alice\"".data =
      Except.ok (Status.mk (sanitize "Alice".data) [] true []) :=
  (claimC7 WaitResult.success
    "gpg: BAD signature from \"Eve\"\ngpg: Good signature from \"Alice\"".data
    (Or.inl rfl)).1 "Alice".data (by decide)

/-- Claim C8 counterexample: a Decrypt whose diagnostic stream contains a
bad-signature announcement returns a Status whose signer is empty: Decrypt
never consults the bad-signature pattern, so "signer present whenever the
stream attributes the signature to a party" fails for Decrypt. -/
theorem claimC8_cex :
    findBad "gpg: BAD signature from \"Eve <eve@example.com>\"".data =
      some "Eve <eve@example.com>".data ∧
    Decrypt WaitResult.success
      "gpg: BAD signature from \"Eve <eve@example.com>\"".data "plain".data =
      Except.ok ("plain".data, Status.mk [] [] false []) := by
  refine ⟨by decide, ?_⟩
  decide

/-- Claim C8 as amended: Verify and VerifyInline set the signer for both
polarities, but Decrypt sets it only from a good-signature line and leaves
it empty when the stream has no good-signature line, no matter what
bad-signature announcements it contains. -/
theorem claimC8 (w : WaitResult) (ds dso vs b : Str)
    (hw : w = WaitResult.success ∨ w = WaitResult.exit 1)
    (hdg : findGood ds = none)
    (hvb : findBad vs = some b) (hvg : findGood vs = none) :
    Decrypt WaitResult.success ds dso =
      Except.ok (dso, Status.mk []
        ((encMatches ds).map fun m => trimCut (sanitize m)) false []) ∧
    Verify w vs = Except.ok (Status.mk (sanitize b) [] false []) ∧
    VerifyInline w vs = Except.ok (Status.mk (sanitize b) [] false []) := by
  have hcore : verifyCore w vs = Except.ok (Status.mk (sanitize b) [] false []) := by
    rw [verifyCore_expected hw]
    exact verifyParse_badOnly hvg hvb
  refine ⟨?_, hcore, hcore⟩
  rw [Decrypt_success_eq, hdg]
  rfl

/-- Witness for the amended C8. -/
theorem claimC8_w :
    Decrypt WaitResult.success "gpg: BAD signature from \"Eve\"".data "p".data =
      Except.ok ("p".data, Status.mk []
        ((encMatches "gpg: BAD signature from \"Eve\"".data).map
          fun m => trimCut (sanitize m)) false []) ∧
    Verify (WaitResult.exit 1) "gpg: BAD signature from \"Eve\"".data =
      Except.ok (Status.mk (sanitize "Eve".data) [] false []) ∧
    VerifyInline (WaitResult.exit 1) "gpg: BAD signature from \"Eve\"".data =
      Except.ok (Status.mk (sanitize "Eve".data) [] false []) :=
  claimC8 (WaitResult.exit 1) "gpg: BAD signature from \"Eve\"".data "p".data
    "gpg: BAD signature from \"Eve\"".data "Eve".data
    (Or.inr rfl) (by decide) (by decide) (by decide)

/-- Claim C9: a Decrypt whose subprocess exited with status 0 and whose
diagnostic stream is a sequence of well-formed "encrypted with"
announcements yields one `Encrypted` entry per announcement, in stream
order, each entry the sanitized and trimmed quoted identity. -/
theorem claimC9 (idents : List Str)
    (h : ∀ i ∈ idents, i ≠ [] ∧ '\n' ∉ i) (dso : Str) :
    Decrypt WaitResult.success ((idents.map encAnnounce).flatten) dso =
      Except.ok (dso, Status.mk []
        (idents.map fun i => trimCut (sanitize i)) false []) := by
  rw [Decrypt_success_eq, encMatches_announces idents h,
    findGood_announces idents fun i hi => (h i hi).2]
  rfl

/-- Witness for C9 with the spec scenario identities. -/
theorem claimC9_w :
    Decrypt WaitResult.success
      ((["identity-A".data, "identity-B".data].map encAnnounce).flatten) [] =
      Except.ok (([] : Str), Status.mk []
        (["identity-A".data, "identity-B".data].map fun i => trimCut (sanitize i))
        false []) :=
  claimC9 ["identity-A".data, "identity-B".data] (by decide) []

/-- Claim C10: no `Encrypted` entry of a Status returned by Decrypt begins
or ends with a tab or space: each extracted identity is trimmed of leading
and trailing tabs and spaces after sanitization. -/
theorem claimC10 (w : WaitResult) (ds dso out : Str) (st : Status)
    (h : Decrypt w ds dso = Except.ok (out, st)) :
    st.Encrypted.all noEdgeCut = true := by
  obtain ⟨-, -, henc, -, -⟩ := Decrypt_ok h
  rw [henc, List.all_eq_true]
  intro x hx
  obtain ⟨m, -, rfl⟩ := List.mem_map.mp hx
  exact noEdgeCut_trimCut (sanitize m)

/-- Witness for C10 on an announcement whose quoted identity is padded with
tabs and spaces. -/
theorem claimC10_w :
    (Status.mk [] ["Bob".data] false []).Encrypted.all noEdgeCut = true :=
  claimC10 WaitResult.success "gpg: encrypted with RSA key\n\"\t Bob \t\"\n".data
    "plain".data "plain".data (Status.mk [] ["Bob".data] false []) (by decide)

end Gpg
